import Mathlib

/-!
Shallow embedding of the pygameui event loop and dispatcher
(`src/pygameui/__init__.py`, functions `run` and `single_loop_run`).

Views, scenes, hit-testing and coordinate transforms live in modules of the
repository that are not part of the verified source (`view.py`, `scene.py`,
`focus.py`); the dispatcher only calls into them.  They are therefore modelled
as an abstract environment: views are identified by natural numbers, and the
environment supplies the current scene's hit-test function, each view's
window-to-local transform, its draggable flag, and the test whether a hit
result is the scene itself.

The observable behaviour of one dispatcher tick is the ordered list of calls
it makes into the backend and into views (`Call` below), together with the
resulting focus state and the quit flag.
-/

namespace PigameUI

/-- Views are identified by natural numbers. -/
abbrev V := Nat

/-- A point in window or local coordinates, as a pair of integers. -/
abbrev Pt := Int × Int

/-- The abstract environment the dispatcher calls into: the current scene's
hit-test (`scene.current.hit`), each view's window-to-local transform
(`View.from_window`), the draggable flag, and whether a view is the scene
itself (`isinstance(hit_view, scene.Scene)`). -/
structure Env where
  hit : Pt → Option V
  fromWindow : V → Pt → Pt
  draggable : V → Bool
  isScene : V → Bool

/-- One observable call made by the dispatcher: backend operations, view
callbacks, and the per-tick frame phase (`update`, `draw`, `blit`, `flip`).
`update` carries the elapsed time in seconds, i.e. `dt/1000.0` for a tick
of `dt` milliseconds. -/
inductive Call where
  | pitftUpdate
  | delPitft
  | pygameQuit
  | mouseDown (v : V) (button : Nat) (pt : Pt)
  | mouseUp (v : V) (button : Nat) (pt : Pt)
  | mouseDrag (v : V) (pt : Pt) (rel : Pt)
  | sceneMotion (pt : Pt)
  | blurred (v : V)
  | keyDownView (v : V) (key : Nat) (uni : Nat)
  | keyDownScene (key : Nat) (uni : Nat)
  | keyUpView (v : V) (key : Nat)
  | keyUpScene (key : Nat)
  | update (dtSeconds : ℚ)
  | draw
  | blit (pt : Pt)
  | flip
deriving DecidableEq

/-- A normalized device event as delivered by the backend.  Pointer events
carry the position tagged on the event; the dispatcher never reads it
(it queries the live cursor position instead), but it is part of the event
record. -/
inductive Event where
  | quit
  | mouseButtonDown (button : Nat) (pos : Pt)
  | mouseButtonUp (button : Nat) (pos : Pt)
  | mouseMotion (pos : Pt) (rel : Pt)
  | keyDown (key : Nat) (uni : Nat)
  | keyUp (key : Nat)
deriving DecidableEq

/-- Erase the event-carried position field, keeping everything the dispatcher
actually reads (kind, button, relative delta, key, unicode). -/
def Event.stripPos : Event → Event
  | .mouseButtonDown b _ => .mouseButtonDown b (0, 0)
  | .mouseButtonUp b _ => .mouseButtonUp b (0, 0)
  | .mouseMotion _ rel => .mouseMotion (0, 0) rel
  | e => e

/-- Dispatcher state while processing one tick's event batch: the global
focus (`focus.view`) and the local `down_in_view` variable. -/
structure DState where
  focus : Option V
  downInView : Option V
deriving DecidableEq

/-- Modelled from the spec: `focus.py` is not under `src/`.  Per §4.3,
`focus.set(view | null)`: on change, the previously focused view (if any)
receives a blurred notification before the new view becomes focused; setting
focus to the already-focused view is a no-op.  Returns the new focus value
and the notification calls emitted. -/
def focusSet (f : Option V) (v : Option V) : Option V × List Call :=
  if f = v then (f, [])
  else (v, match f with
    | some w => [Call.blurred w]
    | none => [])

/-- One non-quit event dispatched by `single_loop_run`'s event loop
(lines 123-159 of `src/pygameui/__init__.py`).  `mp` is the live cursor
position returned by `pygame.mouse.get_pos()` at the moment this event is
processed.  Returns the new dispatcher state and the calls made.
The `quit` case is intercepted before this function is reached. -/
def processEvent (env : Env) (s : DState) (e : Event) (mp : Pt) :
    DState × List Call :=
  match e with
  | .quit => (s, [])
  | .mouseButtonDown b _ =>
    match env.hit mp with
    | some hv =>
      if env.isScene hv then
        let fc := focusSet s.focus none
        (⟨fc.1, s.downInView⟩, fc.2)
      else
        let fc := focusSet s.focus (some hv)
        (⟨fc.1, some hv⟩, fc.2 ++ [Call.mouseDown hv b (env.fromWindow hv mp)])
    | none =>
      let fc := focusSet s.focus none
      (⟨fc.1, s.downInView⟩, fc.2)
  | .mouseButtonUp b _ =>
    match env.hit mp with
    | some hv =>
      match s.downInView with
      | some d =>
        if d = hv then
          (⟨s.focus, none⟩, [Call.mouseUp hv b (env.fromWindow hv mp)])
        else
          let fc := focusSet s.focus none
          (⟨fc.1, none⟩,
            Call.blurred d :: fc.2 ++ [Call.mouseUp hv b (env.fromWindow hv mp)])
      | none =>
        (⟨s.focus, none⟩, [Call.mouseUp hv b (env.fromWindow hv mp)])
    | none => (⟨s.focus, none⟩, [])
  | .mouseMotion _ rel =>
    match s.downInView with
    | some d =>
      if env.draggable d then
        (s, [Call.mouseDrag d (env.fromWindow d mp) rel])
      else
        (s, [Call.sceneMotion mp])
    | none => (s, [Call.sceneMotion mp])
  | .keyDown k u =>
    match s.focus with
    | some fv => (s, [Call.keyDownView fv k u])
    | none => (s, [Call.keyDownScene k u])
  | .keyUp k =>
    match s.focus with
    | some fv => (s, [Call.keyUpView fv k])
    | none => (s, [Call.keyUpScene k])

/-- The event loop of `single_loop_run` over one tick's batch.  Each batch
entry pairs the event with the live cursor position queried when it is
processed.  A quit event tears down the backend (`del(pitft)`,
`pygame.quit()`) and returns immediately with the quit flag set; the
remaining events are not processed. -/
def processEvents (env : Env) : DState → List (Event × Pt) →
    DState × List Call × Bool
  | s, [] => (s, [], false)
  | s, (e, mp) :: rest =>
    if e = Event.quit then (s, [Call.delPitft, Call.pygameQuit], true)
    else
      let r := processEvent env s e mp
      let r2 := processEvents env r.1 rest
      (r2.1, r.2 ++ r2.2.1, r2.2.2)

/-- The message of the assertion at the top of `single_loop_run`. -/
def assertMsg : String := "assert failed: len(scene.stack) > 0"

/-- One tick of the dispatcher (`single_loop_run(dt)`,
lines 112-164 of `src/pygameui/__init__.py`).  Asserts the scene stack is
non-empty, then polls the touchscreen (`pitft.update()`), processes the
event batch with `down_in_view` initialized to `None`, and — unless a quit
event ended the tick — runs the frame phase: `update(dt/1000.0)`, `draw()`,
blit the scene surface at the origin, flip.  Returns the new global focus,
the trace of calls, and whether a quit was requested. -/
def single_loop_run (env : Env) (stack : List Nat) (f : Option V)
    (batch : List (Event × Pt)) (dt : Nat) :
    Except String (Option V × List Call × Bool) :=
  if stack.isEmpty then Except.error assertMsg
  else
    let r := processEvents env ⟨f, none⟩ batch
    if r.2.2 then
      Except.ok (r.1.focus, Call.pitftUpdate :: r.2.1, true)
    else
      Except.ok (r.1.focus,
        Call.pitftUpdate :: (r.2.1 ++
          [Call.update ((dt : ℚ) / 1000), Call.draw, Call.blit (0, 0),
           Call.flip]),
        false)

/-- Input to one iteration of `run`'s `while True` loop: either a tick with
the milliseconds reported by `clock.tick(60)` and the event batch the tick
will poll, or a `KeyboardInterrupt` arriving at the loop boundary. -/
inductive LoopIn where
  | tick (dt : Nat) (batch : List (Event × Pt))
  | interrupt

/-- Outcome of running `run` against a finite input prefix. -/
inductive RunResult where
  | exited (trace : List Call)
  | interrupted (trace : List Call)
  | assertFailed (trace : List Call)
  | running (f : Option V) (elapsed : Nat) (trace : List Call)
deriving DecidableEq

/-- Prepend already-made calls to a run outcome's trace. -/
def RunResult.prependTrace (calls : List Call) : RunResult → RunResult
  | .exited tr => .exited (calls ++ tr)
  | .interrupted tr => .interrupted (calls ++ tr)
  | .assertFailed tr => .assertFailed (calls ++ tr)
  | .running f e tr => .running f e (calls ++ tr)

/-- The `while True` loop of `run` (lines 99-109 of
`src/pygameui/__init__.py`), starting from accumulated elapsed time
`elapsed`.  Each tick adds its `dt` to `elapsed` and only runs the loop body
(`single_loop_run`) once `elapsed > 500`; a body reporting quit triggers
`sys.exit()` immediately.  A `KeyboardInterrupt` tears down the backend
(`del(pitft)`, `pygame.quit()`) and re-raises.  An assertion failure in the
body propagates without teardown. -/
def runAux (env : Env) (stack : List Nat) :
    Option V → Nat → List LoopIn → RunResult
  | f, elapsed, [] => .running f elapsed []
  | _, _, .interrupt :: _ => .interrupted [Call.delPitft, Call.pygameQuit]
  | f, elapsed, .tick dt batch :: rest =>
    if 500 < elapsed + dt then
      match single_loop_run env stack f batch dt with
      | .error _ => .assertFailed []
      | .ok (_, calls, true) => .exited calls
      | .ok (f2, calls, false) =>
        (runAux env stack f2 (elapsed + dt) rest).prependTrace calls
    else
      runAux env stack f (elapsed + dt) rest

/-- `run()`: the loop starts with `elapsed = 0` and no focused view. -/
def run (env : Env) (stack : List Nat) (ins : List LoopIn) : RunResult :=
  runAux env stack none 0 ins

/-- Comparison definition following the spec's words for the gate property:
the same loop with the accumulated-time gate treated as permanently passed,
so the body runs on every tick. -/
def runAuxUngated (env : Env) (stack : List Nat) :
    Option V → Nat → List LoopIn → RunResult
  | f, elapsed, [] => .running f elapsed []
  | _, _, .interrupt :: _ => .interrupted [Call.delPitft, Call.pygameQuit]
  | f, elapsed, .tick dt batch :: rest =>
    match single_loop_run env stack f batch dt with
    | .error _ => .assertFailed []
    | .ok (_, calls, true) => .exited calls
    | .ok (f2, calls, false) =>
      (runAuxUngated env stack f2 (elapsed + dt) rest).prependTrace calls

/-- Whether a call belongs to the frame phase of a tick
(`update`, `draw`, blit, flip). -/
def Call.isFramePhase : Call → Bool
  | .update _ => true
  | .draw => true
  | .blit _ => true
  | .flip => true
  | _ => false

/-- The trace ends with backend teardown: `del(pitft)` then `pygame.quit()`
as its final two calls. -/
def teardownLast (tr : List Call) : Prop :=
  ∃ l, tr = l ++ [Call.delPitft, Call.pygameQuit]

/-- A concrete test environment: view `0` is the scene; view `1` (draggable)
occupies the square `[0,50) × [0,50)`; view `2` (not draggable) occupies
`[50,100)` horizontally; everywhere else the hit-test misses.  The
window-to-local transform of view `v` subtracts `v` from each coordinate. -/
def envA : Env where
  hit p :=
    if 0 ≤ p.1 ∧ p.1 < 50 ∧ 0 ≤ p.2 ∧ p.2 < 50 then some 1
    else if 50 ≤ p.1 ∧ p.1 < 100 ∧ 0 ≤ p.2 ∧ p.2 < 50 then some 2
    else none
  fromWindow v p := (p.1 - Int.ofNat v, p.2 - Int.ofNat v)
  draggable v := v == 1
  isScene v := v == 0

/-! Helper lemmas. -/

/-- The value component of `focusSet` is always the requested focus. -/
theorem focusSet_fst (f v : Option V) : (focusSet f v).1 = v := by
  unfold focusSet
  split
  · exact (by assumption : f = v)
  · rfl

/-- `focus.set` emits only blur notifications, never frame-phase calls. -/
theorem focusSet_calls_not_frame (f v : Option V) :
    ∀ c ∈ (focusSet f v).2, c.isFramePhase = false := by
  unfold focusSet
  split
  · simp
  · cases f <;> simp [Call.isFramePhase]

/-- `focus.set` never emits a `mouse_down` call. -/
theorem focusSet_calls_not_mouseDown (f v : Option V) :
    ∀ c ∈ (focusSet f v).2, ∀ t b pt, c ≠ Call.mouseDown t b pt := by
  unfold focusSet
  split
  · simp
  · cases f <;> simp

/-- Unfolding `processEvents` on a non-quit head event. -/
theorem processEvents_cons_nonquit (env : Env) (s : DState) (e : Event)
    (mp : Pt) (rest : List (Event × Pt)) (he : e ≠ Event.quit) :
    processEvents env s ((e, mp) :: rest) =
      ((processEvents env (processEvent env s e mp).1 rest).1,
       (processEvent env s e mp).2 ++
         (processEvents env (processEvent env s e mp).1 rest).2.1,
       (processEvents env (processEvent env s e mp).1 rest).2.2) := by
  simp [processEvents, he]

/-- A batch without quit events never raises the quit flag. -/
theorem processEvents_no_quit_flag (env : Env) :
    ∀ (batch : List (Event × Pt)) (s : DState),
      (∀ ep ∈ batch, ep.1 ≠ Event.quit) →
      (processEvents env s batch).2.2 = false := by
  intro batch
  induction batch with
  | nil => intro s _; rfl
  | cons hd tl ih =>
    intro s h
    obtain ⟨e, mp⟩ := hd
    have he : e ≠ Event.quit := h (e, mp) (List.mem_cons_self _ _)
    rw [processEvents_cons_nonquit env s e mp tl he]
    exact ih _ fun ep hep => h ep (List.mem_cons_of_mem _ hep)

/-! Claim theorems and witnesses. -/

/-- C7: executing a tick with an empty scene stack is a fatal assertion
failure at loop-body entry: `single_loop_run` returns the assertion error
before polling or processing any event, making no calls at all, for every
environment, focus, batch and dt. -/
theorem empty_stack_asserts (env : Env) (f : Option V)
    (batch : List (Event × Pt)) (dt : Nat) :
    single_loop_run env [] f batch dt = Except.error assertMsg := rfl

/-- C1 evidence: `down_in_view` is a local of `single_loop_run`, reset to
`None` at the start of every tick.  A tick whose batch presses draggable
view `1` ends with `down_in_view = some 1`, yet the next tick routes a
motion event to the scene's motion handler instead of dragging view `1`:
the press is invisible to later ticks, contradicting the claim that
`down_in_view` is state held across ticks. -/
theorem down_in_view_reset_each_tick :
    (processEvents envA ⟨none, none⟩
        [(Event.mouseButtonDown 1 (10, 10), ((10 : Int), (10 : Int)))]).1.downInView
      = some 1
    ∧ envA.draggable 1 = true
    ∧ single_loop_run envA [0] (some 1)
        [(Event.mouseMotion (20, 20) (1, 0), ((20 : Int), (20 : Int)))] 16 =
      Except.ok (some 1,
        [Call.pitftUpdate, Call.sceneMotion (20, 20),
         Call.update ((16 : ℚ) / 1000), Call.draw, Call.blit (0, 0),
         Call.flip],
        false) := by
  refine ⟨rfl, rfl, ?_⟩
  rfl

/-- Dispatch of a single event does not depend on the event-carried
position field. -/
theorem processEvent_stripPos (env : Env) (s : DState) (e : Event) (mp : Pt) :
    processEvent env s e.stripPos mp = processEvent env s e mp := by
  cases e <;> rfl

/-- Stripping position fields preserves quit-ness. -/
theorem stripPos_eq_quit (e : Event) : e.stripPos = Event.quit ↔ e = Event.quit := by
  cases e <;> simp [Event.stripPos]

/-- Batch dispatch does not depend on the event-carried position fields. -/
theorem processEvents_stripPos (env : Env) :
    ∀ (batch : List (Event × Pt)) (s : DState),
      processEvents env s (batch.map fun ep => (ep.1.stripPos, ep.2)) =
        processEvents env s batch := by
  intro batch
  induction batch with
  | nil => intro s; rfl
  | cons hd tl ih =>
    intro s
    obtain ⟨e, mp⟩ := hd
    by_cases he : e = Event.quit
    · subst he; rfl
    · have he2 : e.stripPos ≠ Event.quit := fun h => he ((stripPos_eq_quit e).mp h)
      rw [List.map_cons, processEvents_cons_nonquit env s e.stripPos mp _ he2,
        processEvents_cons_nonquit env s e mp tl he, processEvent_stripPos, ih]

/-- C10: the dispatcher reads the live cursor position queried at processing
time, never the position tagged on the event, so two batches that agree on
everything except the event-carried positions (same kinds, buttons, deltas,
keys, and same queried cursor positions) dispatch identically: same focus,
same call trace, same quit flag. -/
theorem dispatch_ignores_event_positions (env : Env) (stack : List Nat)
    (f : Option V) (dt : Nat) (b1 b2 : List (Event × Pt))
    (h : b1.map (fun ep => (ep.1.stripPos, ep.2)) =
         b2.map (fun ep => (ep.1.stripPos, ep.2))) :
    single_loop_run env stack f b1 dt = single_loop_run env stack f b2 dt := by
  unfold single_loop_run
  rw [← processEvents_stripPos env b1 ⟨f, none⟩,
    ← processEvents_stripPos env b2 ⟨f, none⟩, h]

/-- Witness for C10: two pointer-down events tagged with different positions
but processed at the same queried cursor position dispatch identically. -/
theorem dispatch_ignores_event_positions_witness :
    single_loop_run envA [0] none
        [(Event.mouseButtonDown 1 (0, 0), ((10 : Int), (10 : Int)))] 16 =
      single_loop_run envA [0] none
        [(Event.mouseButtonDown 1 (99, 99), ((10 : Int), (10 : Int)))] 16 :=
  dispatch_ignores_event_positions envA [0] none 16 _ _ rfl

/-- C4: pointer-down dispatch.  If the hit-test returns a non-scene view,
focus is set to it, it is recorded as `down_in_view`, and its `mouse_down`
is invoked with the button and the point converted to its local space.
If the hit-test misses, or hits the scene itself, focus is cleared,
`down_in_view` is unchanged, and no `mouse_down` is delivered (the only
calls are blur notifications from clearing focus). -/
theorem pointer_down_dispatch (env : Env) (s : DState) (b : Nat) (p mp : Pt) :
    (∀ t, env.hit mp = some t → env.isScene t = false →
      processEvent env s (Event.mouseButtonDown b p) mp =
        (⟨some t, some t⟩,
          (focusSet s.focus (some t)).2 ++
            [Call.mouseDown t b (env.fromWindow t mp)]))
    ∧ (env.hit mp = none →
      processEvent env s (Event.mouseButtonDown b p) mp =
        (⟨none, s.downInView⟩, (focusSet s.focus none).2))
    ∧ (∀ t, env.hit mp = some t → env.isScene t = true →
      processEvent env s (Event.mouseButtonDown b p) mp =
        (⟨none, s.downInView⟩, (focusSet s.focus none).2))
    ∧ (∀ c ∈ (focusSet s.focus none).2, ∀ t b2 pt, c ≠ Call.mouseDown t b2 pt) := by
  refine ⟨?_, ?_, ?_, focusSet_calls_not_mouseDown s.focus none⟩
  · intro t ht hsc
    simp [processEvent, ht, hsc, focusSet_fst]
  · intro ht
    simp [processEvent, ht, focusSet_fst]
  · intro t ht hsc
    simp [processEvent, ht, hsc, focusSet_fst]

/-- Witness for C4: pressing at (10,10) hits non-scene view 1; it is
focused, recorded, and receives `mouse_down` at its local point (9,9). -/
theorem pointer_down_dispatch_witness :
    envA.hit (10, 10) = some 1 ∧ envA.isScene 1 = false ∧
    processEvent envA ⟨none, none⟩ (Event.mouseButtonDown 1 (10, 10))
        ((10 : Int), (10 : Int)) =
      (⟨some 1, some 1⟩, [Call.mouseDown 1 1 (9, 9)]) :=
  ⟨by decide, by decide,
    (pointer_down_dispatch envA ⟨none, none⟩ 1 (10, 10) (10, 10)).1 1
      (by decide) (by decide)⟩

/-- C3: pointer-up dispatch.  If the hit-test returns a view that differs
from a set `down_in_view`, the latter is notified it was blurred and focus
is cleared, and the release is still delivered to the view under the cursor
via `mouse_up` with the point converted to its local space; if `down_in_view`
is unset or equals the hit view, `mouse_up` is delivered without any blur;
and `down_in_view` is cleared afterward regardless of the hit outcome. -/
theorem pointer_up_dispatch (env : Env) (s : DState) (b : Nat) (p mp : Pt) :
    (∀ t d, env.hit mp = some t → s.downInView = some d → d ≠ t →
      processEvent env s (Event.mouseButtonUp b p) mp =
        (⟨none, none⟩,
          Call.blurred d :: (focusSet s.focus none).2 ++
            [Call.mouseUp t b (env.fromWindow t mp)]))
    ∧ (∀ t, env.hit mp = some t →
        (s.downInView = none ∨ s.downInView = some t) →
      processEvent env s (Event.mouseButtonUp b p) mp =
        (⟨s.focus, none⟩, [Call.mouseUp t b (env.fromWindow t mp)]))
    ∧ (processEvent env s (Event.mouseButtonUp b p) mp).1.downInView = none := by
  refine ⟨?_, ?_, ?_⟩
  · intro t d ht hd hne
    simp [processEvent, ht, hd, hne, focusSet_fst]
  · intro t ht hd
    rcases hd with hd | hd <;> simp [processEvent, ht, hd]
  · rcases ht : env.hit mp with _ | t
    · simp [processEvent, ht]
    · rcases hd : s.downInView with _ | d
      · simp [processEvent, ht, hd]
      · by_cases he : d = t <;> simp [processEvent, ht, hd, he]

/-- Witness for C3: pressing view 1 then releasing over view 2 blurs view 1
(twice: once explicitly, once from clearing focus), clears focus, and
delivers `mouse_up` to view 2 at its local point. -/
theorem pointer_up_dispatch_witness :
    envA.hit (60, 10) = some 2 ∧
    processEvent envA ⟨some 1, some 1⟩ (Event.mouseButtonUp 1 (60, 10))
        ((60 : Int), (10 : Int)) =
      (⟨none, none⟩,
        [Call.blurred 1, Call.blurred 1, Call.mouseUp 2 1 (58, 8)]) :=
  ⟨by decide,
    (pointer_up_dispatch envA ⟨some 1, some 1⟩ 1 (60, 10) (60, 10)).1 2 1
      (by decide) rfl (by decide)⟩

/-- C9: pointer-move dispatch.  If `down_in_view` is set and draggable, its
`mouse_drag` is invoked with the point converted to its local space and the
event-carried raw relative delta; otherwise (no `down_in_view`, or a
non-draggable one) the raw window-space motion point is forwarded to the
current scene's motion handler. -/
theorem pointer_move_dispatch (env : Env) (s : DState) (p rel mp : Pt) :
    (∀ d, s.downInView = some d → env.draggable d = true →
      processEvent env s (Event.mouseMotion p rel) mp =
        (s, [Call.mouseDrag d (env.fromWindow d mp) rel]))
    ∧ (s.downInView = none →
      processEvent env s (Event.mouseMotion p rel) mp =
        (s, [Call.sceneMotion mp]))
    ∧ (∀ d, s.downInView = some d → env.draggable d = false →
      processEvent env s (Event.mouseMotion p rel) mp =
        (s, [Call.sceneMotion mp])) := by
  refine ⟨?_, ?_, ?_⟩
  · intro d hd hdr
    simp [processEvent, hd, hdr]
  · intro hd
    simp [processEvent, hd]
  · intro d hd hdr
    simp [processEvent, hd, hdr]

/-- Witness for C9: with draggable view 1 as `down_in_view`, a motion at
queried position (20,20) produces a `mouse_drag` on view 1 at its local
point (19,19) with the event's relative delta. -/
theorem pointer_move_dispatch_witness :
    envA.draggable 1 = true ∧
    processEvent envA ⟨some 1, some 1⟩ (Event.mouseMotion (20, 20) (1, 2))
        ((20 : Int), (20 : Int)) =
      (⟨some 1, some 1⟩, [Call.mouseDrag 1 (19, 19) (1, 2)]) :=
  ⟨by decide,
    (pointer_move_dispatch envA ⟨some 1, some 1⟩ (20, 20) (1, 2) (20, 20)).1 1
      rfl (by decide)⟩

/-- A tick whose batch contains no quit event runs the full frame phase
after the event calls and reports no quit. -/
theorem singleLoopRun_noQuit (env : Env) (stack : List Nat) (f : Option V)
    (batch : List (Event × Pt)) (dt : Nat)
    (hs : stack ≠ []) (hq : ∀ ep ∈ batch, ep.1 ≠ Event.quit) :
    single_loop_run env stack f batch dt =
      Except.ok ((processEvents env ⟨f, none⟩ batch).1.focus,
        Call.pitftUpdate :: ((processEvents env ⟨f, none⟩ batch).2.1 ++
          [Call.update ((dt : ℚ) / 1000), Call.draw, Call.blit (0, 0),
           Call.flip]),
        false) := by
  cases stack with
  | nil => exact absurd rfl hs
  | cons a l =>
    simp [single_loop_run, processEvents_no_quit_flag env batch ⟨f, none⟩ hq]

/-- C2 counterexample: pointer-down at (10,10) over view 1 then pointer-up
at (200,200) where the hit-test misses.  Contrary to the claim, view 1 is
never blurred and focus is not cleared: focus remains on view 1 and the
trace contains no blur notification. -/
theorem pointer_up_miss_keeps_focus_cex :
    single_loop_run envA [0] none
        [(Event.mouseButtonDown 1 (10, 10), ((10 : Int), (10 : Int))),
         (Event.mouseButtonUp 1 (200, 200), ((200 : Int), (200 : Int)))] 16 =
      Except.ok (some 1,
        [Call.pitftUpdate, Call.mouseDown 1 1 (9, 9),
         Call.update ((16 : ℚ) / 1000), Call.draw, Call.blit (0, 0),
         Call.flip],
        false)
    ∧ Call.blurred 1 ∉
        [Call.pitftUpdate, Call.mouseDown 1 1 ((9 : Int), (9 : Int)),
         Call.update ((16 : ℚ) / 1000), Call.draw,
         Call.blit ((0 : Int), (0 : Int)), Call.flip] :=
  ⟨rfl, by decide⟩

/-- C2 (amended): when a pointer-down lands on non-scene view B and the
pointer-up is processed at a point where the hit-test returns a different
view C, B receives `mouse_down`, then is blurred and focus is cleared, and
C receives `mouse_up`; but when no view lies under the release point, B is
not blurred and keeps focus — only `down_in_view` is cleared. -/
theorem press_release_cross_view (env : Env) (stack : List Nat)
    (f : Option V) (b1 b2 : Nat) (p1 p2 mp1 mp2 : Pt) (B : V) (dt : Nat)
    (hs : stack ≠ []) (hB : env.hit mp1 = some B)
    (hsc : env.isScene B = false) :
    (∀ C, env.hit mp2 = some C → C ≠ B →
      single_loop_run env stack f
          [(Event.mouseButtonDown b1 p1, mp1),
           (Event.mouseButtonUp b2 p2, mp2)] dt =
        Except.ok (none,
          Call.pitftUpdate ::
            ((focusSet f (some B)).2 ++
              [Call.mouseDown B b1 (env.fromWindow B mp1),
               Call.blurred B, Call.blurred B,
               Call.mouseUp C b2 (env.fromWindow C mp2),
               Call.update ((dt : ℚ) / 1000), Call.draw, Call.blit (0, 0),
               Call.flip]),
          false))
    ∧ (env.hit mp2 = none →
      single_loop_run env stack f
          [(Event.mouseButtonDown b1 p1, mp1),
           (Event.mouseButtonUp b2 p2, mp2)] dt =
        Except.ok (some B,
          Call.pitftUpdate ::
            ((focusSet f (some B)).2 ++
              [Call.mouseDown B b1 (env.fromWindow B mp1),
               Call.update ((dt : ℚ) / 1000), Call.draw, Call.blit (0, 0),
               Call.flip]),
          false)) := by
  have hnq1 : Event.mouseButtonDown b1 p1 ≠ Event.quit := by simp
  have hnq2 : Event.mouseButtonUp b2 p2 ≠ Event.quit := by simp
  have h1 : processEvent env ⟨f, none⟩ (Event.mouseButtonDown b1 p1) mp1 =
      (⟨some B, some B⟩,
        (focusSet f (some B)).2 ++
          [Call.mouseDown B b1 (env.fromWindow B mp1)]) := by
    simp [processEvent, hB, hsc, focusSet_fst]
  constructor
  · intro C hC hne
    have hne2 : ¬(B = C) := fun h => hne h.symm
    have h2 : processEvent env ⟨some B, some B⟩
        (Event.mouseButtonUp b2 p2) mp2 =
        (⟨none, none⟩,
          [Call.blurred B, Call.blurred B,
           Call.mouseUp C b2 (env.fromWindow C mp2)]) := by
      simp [processEvent, hC, hne2, focusSet]
    have h3 : processEvents env ⟨f, none⟩
        [(Event.mouseButtonDown b1 p1, mp1),
         (Event.mouseButtonUp b2 p2, mp2)] =
        (⟨none, none⟩,
          ((focusSet f (some B)).2 ++
            [Call.mouseDown B b1 (env.fromWindow B mp1)]) ++
            [Call.blurred B, Call.blurred B,
             Call.mouseUp C b2 (env.fromWindow C mp2)],
          false) := by
      rw [processEvents_cons_nonquit env _ _ _ _ hnq1, h1]
      rw [processEvents_cons_nonquit env _ _ _ _ hnq2, h2]
      simp [processEvents]
    rw [singleLoopRun_noQuit env stack f _ dt hs
      (by simp), h3]
    simp [List.append_assoc]
  · intro hC
    have h2 : processEvent env ⟨some B, some B⟩
        (Event.mouseButtonUp b2 p2) mp2 = (⟨some B, none⟩, []) := by
      simp [processEvent, hC]
    have h3 : processEvents env ⟨f, none⟩
        [(Event.mouseButtonDown b1 p1, mp1),
         (Event.mouseButtonUp b2 p2, mp2)] =
        (⟨some B, none⟩,
          ((focusSet f (some B)).2 ++
            [Call.mouseDown B b1 (env.fromWindow B mp1)]) ++ [],
          false) := by
      rw [processEvents_cons_nonquit env _ _ _ _ hnq1, h1]
      rw [processEvents_cons_nonquit env _ _ _ _ hnq2, h2]
      simp [processEvents]
    rw [singleLoopRun_noQuit env stack f _ dt hs
      (by simp), h3]
    simp [List.append_assoc]

/-- Witness for C2 (amended): press view 1 at (10,10), release over view 2
at (60,10): view 1 gets `mouse_down` and the blur, focus is cleared, view 2
gets `mouse_up`. -/
theorem press_release_cross_view_witness :
    single_loop_run envA [0] none
        [(Event.mouseButtonDown 1 (10, 10), ((10 : Int), (10 : Int))),
         (Event.mouseButtonUp 1 (60, 10), ((60 : Int), (10 : Int)))] 16 =
      Except.ok (none,
        [Call.pitftUpdate, Call.mouseDown 1 1 (9, 9), Call.blurred 1,
         Call.blurred 1, Call.mouseUp 2 1 (58, 8),
         Call.update ((16 : ℚ) / 1000), Call.draw, Call.blit (0, 0),
         Call.flip],
        false) := by
  have h := (press_release_cross_view envA [0] none 1 1 (10, 10) (60, 10)
      (10, 10) (60, 10) 1 16 (by simp) (by decide) (by decide)).1 2
      (by decide) (by decide)
  simpa [focusSet] using h

/-- Every call made by dispatching one event is an input-phase call, never
part of the frame phase. -/
theorem processEvent_calls_not_frame (env : Env) (s : DState) (e : Event)
    (mp : Pt) :
    ∀ c ∈ (processEvent env s e mp).2, c.isFramePhase = false := by
  cases e with
  | quit => simp [processEvent]
  | mouseButtonDown b pos =>
    rcases ht : env.hit mp with _ | t
    · simpa [processEvent, ht] using focusSet_calls_not_frame s.focus none
    · by_cases hsc : env.isScene t
      · simpa [processEvent, ht, hsc] using focusSet_calls_not_frame s.focus none
      · intro c hc
        simp [processEvent, ht, hsc] at hc
        rcases hc with hc | hc
        · exact focusSet_calls_not_frame s.focus (some t) c hc
        · subst hc; rfl
  | mouseButtonUp b pos =>
    rcases ht : env.hit mp with _ | t
    · simp [processEvent, ht]
    · rcases hd : s.downInView with _ | d
      · intro c hc
        simp [processEvent, ht, hd] at hc
        subst hc; rfl
      · by_cases he : d = t
        · intro c hc
          simp [processEvent, ht, hd, he] at hc
          subst hc; rfl
        · intro c hc
          simp [processEvent, ht, hd, he] at hc
          rcases hc with hc | hc | hc
          · subst hc; rfl
          · exact focusSet_calls_not_frame s.focus none c hc
          · subst hc; rfl
  | mouseMotion pos rel =>
    rcases hd : s.downInView with _ | d
    · intro c hc
      simp [processEvent, hd] at hc
      subst hc; rfl
    · by_cases hdr : env.draggable d <;> intro c hc <;>
        simp [processEvent, hd, hdr] at hc <;> subst hc <;> rfl
  | keyDown k u =>
    rcases hf : s.focus with _ | fv <;> intro c hc <;>
      simp [processEvent, hf] at hc <;> subst hc <;> rfl
  | keyUp k =>
    rcases hf : s.focus with _ | fv <;> intro c hc <;>
      simp [processEvent, hf] at hc <;> subst hc <;> rfl

/-- Every call made while processing a tick's event batch is an input-phase
call, never part of the frame phase. -/
theorem processEvents_calls_not_frame (env : Env) :
    ∀ (batch : List (Event × Pt)) (s : DState),
      ∀ c ∈ (processEvents env s batch).2.1, c.isFramePhase = false := by
  intro batch
  induction batch with
  | nil => intro s c hc; simp [processEvents] at hc
  | cons hd tl ih =>
    intro s c hc
    obtain ⟨e, mp⟩ := hd
    by_cases he : e = Event.quit
    · subst he
      simp [processEvents] at hc
      rcases hc with hc | hc <;> subst hc <;> rfl
    · rw [processEvents_cons_nonquit env s e mp tl he] at hc
      simp at hc
      rcases hc with hc | hc
      · exact processEvent_calls_not_frame env s e mp c hc
      · exact ih _ c hc

/-- C6: for a tick whose batch contains no quit event, the trace is exactly
the backend poll, then the event-dispatch calls (none of which belong to
the frame phase), then `update(dt/1000)`, then `draw`, then the blit at the
origin, then the present — so update runs after all input events and before
draw, draw before compositing, compositing before present. -/
theorem tick_phase_order (env : Env) (stack : List Nat) (f : Option V)
    (batch : List (Event × Pt)) (dt : Nat)
    (hs : stack ≠ []) (hq : ∀ ep ∈ batch, ep.1 ≠ Event.quit) :
    single_loop_run env stack f batch dt =
      Except.ok ((processEvents env ⟨f, none⟩ batch).1.focus,
        Call.pitftUpdate :: ((processEvents env ⟨f, none⟩ batch).2.1 ++
          [Call.update ((dt : ℚ) / 1000), Call.draw, Call.blit (0, 0),
           Call.flip]),
        false)
    ∧ (∀ c ∈ (processEvents env ⟨f, none⟩ batch).2.1,
        c.isFramePhase = false) :=
  ⟨singleLoopRun_noQuit env stack f batch dt hs hq,
   processEvents_calls_not_frame env batch ⟨f, none⟩⟩

/-- Witness for C6: a one-event batch produces poll, mouse_down, update,
draw, blit at the origin, flip, in that order. -/
theorem tick_phase_order_witness :
    single_loop_run envA [0] none
        [(Event.mouseButtonDown 1 (10, 10), ((10 : Int), (10 : Int)))] 16 =
      Except.ok (some 1,
        [Call.pitftUpdate, Call.mouseDown 1 1 (9, 9),
         Call.update ((16 : ℚ) / 1000), Call.draw, Call.blit (0, 0),
         Call.flip],
        false) :=
  (tick_phase_order envA [0] none
    [(Event.mouseButtonDown 1 (10, 10), ((10 : Int), (10 : Int)))] 16
    (by simp) (by decide)).1

/-- Once the accumulated-time gate is open, it stays open: the loop behaves
exactly like the loop with the gate removed. -/
theorem runAux_gate_open (env : Env) (stack : List Nat) :
    ∀ (ins : List LoopIn) (f : Option V) (elapsed : Nat), 500 < elapsed →
      runAux env stack f elapsed ins = runAuxUngated env stack f elapsed ins := by
  intro ins
  induction ins with
  | nil => intro f e _; rfl
  | cons hd tl ih =>
    intro f e h
    cases hd with
    | interrupt => rfl
    | tick dt batch =>
      have h2 : 500 < e + dt := Nat.lt_of_lt_of_le h (Nat.le_add_right e dt)
      simp only [runAux, runAuxUngated, if_pos h2]
      rcases hsl : single_loop_run env stack f batch dt with m | r
      · rfl
      · obtain ⟨f2, calls, q⟩ := r
        cases q
        · show (runAux env stack f2 (e + dt) tl).prependTrace calls =
              (runAuxUngated env stack f2 (e + dt) tl).prependTrace calls
          rw [ih f2 (e + dt) (Nat.lt_of_lt_of_le h (Nat.le_add_right e dt))]
        · rfl

/-- C5: the run loop gates the body on accumulated elapsed time.  While
`elapsed + dt ≤ 500` the iteration only accumulates time and the body
(which contains the termination check) does not execute; once the
accumulator exceeds 500 the gate is passed permanently (the loop equals the
ungated loop, as the accumulator is never reset); and any body execution
that reports a quit request terminates the run at that check. -/
theorem run_gate (env : Env) (stack : List Nat) (f : Option V)
    (elapsed dt : Nat) (batch : List (Event × Pt)) (rest : List LoopIn) :
    (elapsed + dt ≤ 500 →
      runAux env stack f elapsed (LoopIn.tick dt batch :: rest) =
        runAux env stack f (elapsed + dt) rest)
    ∧ (500 < elapsed →
      runAux env stack f elapsed (LoopIn.tick dt batch :: rest) =
        runAuxUngated env stack f elapsed (LoopIn.tick dt batch :: rest))
    ∧ (∀ f2 calls, 500 < elapsed + dt →
        single_loop_run env stack f batch dt = Except.ok (f2, calls, true) →
        runAux env stack f elapsed (LoopIn.tick dt batch :: rest) =
          RunResult.exited calls) := by
  refine ⟨?_, ?_, ?_⟩
  · intro h
    simp only [runAux, if_neg (Nat.not_lt.mpr h)]
  · intro h
    exact runAux_gate_open env stack (LoopIn.tick dt batch :: rest) f elapsed h
  · intro f2 calls h hsl
    simp only [runAux, if_pos h, hsl]

/-- Witness for C5: at `elapsed = 0` a 100 ms tick only accumulates; at
`elapsed = 501` the loop equals the ungated loop; a 600 ms first tick whose
batch is a quit event exits immediately with the teardown trace. -/
theorem run_gate_witness :
    (runAux envA [0] none 0 [LoopIn.tick 100 []] = runAux envA [0] none 100 [])
    ∧ (runAux envA [0] none 501 [LoopIn.tick 16 []] =
        runAuxUngated envA [0] none 501 [LoopIn.tick 16 []])
    ∧ runAux envA [0] none 0
        [LoopIn.tick 600 [(Event.quit, ((0 : Int), (0 : Int)))]] =
      RunResult.exited [Call.pitftUpdate, Call.delPitft, Call.pygameQuit] :=
  ⟨(run_gate envA [0] none 0 100 [] []).1 (by decide),
   (run_gate envA [0] none 501 16 [] []).2.1 (by decide),
   (run_gate envA [0] none 0 600 [(Event.quit, ((0 : Int), (0 : Int)))] []).2.2
     none [Call.pitftUpdate, Call.delPitft, Call.pygameQuit] (by decide) rfl⟩

/-- Appending a prefix preserves a teardown-terminated trace. -/
theorem teardownLast_append (l tr : List Call) (h : teardownLast tr) :
    teardownLast (l ++ tr) := by
  obtain ⟨m, hm⟩ := h
  exact ⟨l ++ m, by rw [hm, List.append_assoc]⟩

/-- If the batch raises the quit flag, the event-loop trace ends with the
backend teardown calls. -/
theorem processEvents_quit_teardown (env : Env) :
    ∀ (batch : List (Event × Pt)) (s : DState),
      (processEvents env s batch).2.2 = true →
      teardownLast (processEvents env s batch).2.1 := by
  intro batch
  induction batch with
  | nil => intro s h; simp [processEvents] at h
  | cons hd tl ih =>
    intro s h
    obtain ⟨e, mp⟩ := hd
    by_cases he : e = Event.quit
    · subst he
      exact ⟨[], by simp [processEvents]⟩
    · rw [processEvents_cons_nonquit env s e mp tl he] at h ⊢
      exact teardownLast_append _ _ (ih _ h)

/-- A tick that reports quit produced a trace ending with the backend
teardown calls. -/
theorem single_loop_run_quit_teardown (env : Env) (stack : List Nat)
    (f f2 : Option V) (batch : List (Event × Pt)) (dt : Nat)
    (calls : List Call)
    (h : single_loop_run env stack f batch dt = Except.ok (f2, calls, true)) :
    teardownLast calls := by
  unfold single_loop_run at h
  by_cases hs : stack.isEmpty
  · simp [hs] at h
  · by_cases hq2 : (processEvents env ⟨f, none⟩ batch).2.2
    · simp only [hs, hq2, if_true, if_false, Bool.false_eq_true,
        Except.ok.injEq, Prod.mk.injEq] at h
      obtain ⟨-, hcalls, -⟩ := h
      exact hcalls ▸ teardownLast_append [Call.pitftUpdate] _
        (processEvents_quit_teardown env batch ⟨f, none⟩ hq2)
    · simp [hs, hq2] at h

/-- C8: both termination paths release the backend first.  Whenever the run
loop ends by a quit-type event (`sys.exit` after the body reported quit) or
by a `KeyboardInterrupt` re-raised to the caller, the trace ends with
`del(pitft)` followed by `pygame.quit()`. -/
theorem teardown_before_termination (env : Env) (stack : List Nat) :
    ∀ (ins : List LoopIn) (f : Option V) (elapsed : Nat),
      (∀ tr, runAux env stack f elapsed ins = RunResult.exited tr →
        teardownLast tr)
      ∧ (∀ tr, runAux env stack f elapsed ins = RunResult.interrupted tr →
        teardownLast tr) := by
  intro ins
  induction ins with
  | nil =>
    intro f e
    constructor <;> intro tr h <;> simp [runAux] at h
  | cons hd tl ih =>
    intro f e
    cases hd with
    | interrupt =>
      refine ⟨fun tr h => ?_, fun tr h => ?_⟩
      · simp [runAux] at h
      · simp only [runAux, RunResult.interrupted.injEq] at h
        exact h ▸ ⟨[], rfl⟩
    | tick dt batch =>
      by_cases hg : 500 < e + dt
      · refine ⟨fun tr h => ?_, fun tr h => ?_⟩
        · simp only [runAux, if_pos hg] at h
          split at h
          · simp at h
          · rename_i fst calls heq
            simp only [RunResult.exited.injEq] at h
            exact h ▸
              single_loop_run_quit_teardown env stack f fst batch dt calls heq
          · rename_i f2 calls heq
            rcases hr : runAux env stack f2 (e + dt) tl with
              tr2 | tr2 | tr2 | ⟨f3, e3, tr2⟩
            · rw [hr] at h
              simp only [RunResult.prependTrace, RunResult.exited.injEq] at h
              exact h ▸
                teardownLast_append calls tr2 ((ih f2 (e + dt)).1 tr2 hr)
            · rw [hr] at h
              simp [RunResult.prependTrace] at h
            · rw [hr] at h
              simp [RunResult.prependTrace] at h
            · rw [hr] at h
              simp [RunResult.prependTrace] at h
        · simp only [runAux, if_pos hg] at h
          split at h
          · simp at h
          · simp at h
          · rename_i f2 calls heq
            rcases hr : runAux env stack f2 (e + dt) tl with
              tr2 | tr2 | tr2 | ⟨f3, e3, tr2⟩
            · rw [hr] at h
              simp [RunResult.prependTrace] at h
            · rw [hr] at h
              simp only [RunResult.prependTrace,
                RunResult.interrupted.injEq] at h
              exact h ▸
                teardownLast_append calls tr2 ((ih f2 (e + dt)).2 tr2 hr)
            · rw [hr] at h
              simp [RunResult.prependTrace] at h
            · rw [hr] at h
              simp [RunResult.prependTrace] at h
      · refine ⟨fun tr h => ?_, fun tr h => ?_⟩ <;>
          simp only [runAux, if_neg hg] at h
        · exact (ih f (e + dt)).1 tr h
        · exact (ih f (e + dt)).2 tr h

/-- Witness for C8: a run interrupted at the first loop boundary terminates
with the teardown pair as its trace. -/
theorem teardown_before_termination_witness :
    teardownLast [Call.delPitft, Call.pygameQuit] :=
  (teardown_before_termination envA [0] [LoopIn.interrupt] none 0).2
    [Call.delPitft, Call.pygameQuit] rfl

end PigameUI
